import Mathlib

/-!
Verification of the `httpclient` fluent HTTP request builder (request.go).

The development shallowly embeds the Go source: the `Request` builder, its
configuration methods, the materialization step `toHTTPRequest`, the retry
executor `doRetry`, and the terminal methods `Do`, `Bytes`, `String`, `JSON`,
`XML`, `JSONWithError`, `XMLWithError`.

External collaborators are modelled explicitly:
* the HTTP transport (`http.Client.Do`) is a function from the materialized
  request and an attempt index to either a transport error or a response;
  the attempt index stands for the state of the external world, so distinct
  attempts may observe distinct outcomes;
* the standard-library helpers (`http.NewRequest`, `textproto`
  canonicalization, `encoding/json` and `encoding/xml` codecs) are modelled
  by simple executable functions that keep exactly the distinctions the
  claims need (valid/invalid inputs, success/failure of a codec);
* the `Response` decoder lives in response.go, which is not part of the
  sources at hand, so its methods are modelled from the specification.

Go `(value, error)` return pairs are embedded as pairs of `Option`s (a Go
`nil` pointer or `nil` error is `none`); functions additionally return a
`Nat` counting how many times the transport was invoked, which is the ghost
observation several claims quantify over.
-/

/-- Errors a request can surface: a body-encoding failure (`WithJSON` /
`WithXML`), a body-decoding failure, a transport-level failure
(`http.Client.Do`), or a request-construction failure (`http.NewRequest`). -/
inductive GoError where
  | encode (msg : String)
  | decode (msg : String)
  | transport (msg : String)
  | badRequest (msg : String)
deriving DecidableEq

/-- Model of an arbitrary Go value handed to an encoder (`interface{}`):
either a value whose serialized form is the given payload, or a value the
encoder rejects (a channel, a function, ...). -/
inductive GoValue where
  | ok (payload : List UInt8)
  | bad (msg : String)
deriving DecidableEq

/-- Model of `encoding/json` encoding: serializable values yield their
payload, unsupported values fail. -/
def jsonEncode : GoValue → Except GoError (List UInt8)
  | .ok p => .ok p
  | .bad m => .error (.encode m)

/-- Model of `encoding/json` decoding: an empty (already drained) stream is a
decode error, otherwise the payload is recovered. -/
def jsonDecode (bs : List UInt8) : Except GoError GoValue :=
  if bs.isEmpty then .error (.decode "EOF") else .ok (.ok bs)

/-- Model of `encoding/xml` encoding. -/
def xmlEncode : GoValue → Except GoError (List UInt8)
  | .ok p => .ok p
  | .bad m => .error (.encode m)

/-- Model of `encoding/xml` decoding. -/
def xmlDecode (bs : List UInt8) : Except GoError GoValue :=
  if bs.isEmpty then .error (.decode "XML syntax error") else .ok (.ok bs)

/-- Model of Go's `context.Context`: an opaque token. -/
structure GoContext where
  id : Nat
deriving DecidableEq

/-- UTF-8 encoding of one character, byte for byte as Go produces it when a
string is converted to `[]byte`. -/
def charUTF8 (c : Char) : List UInt8 :=
  let n := c.toNat
  if n < 0x80 then
    [UInt8.ofNat n]
  else if n < 0x800 then
    [UInt8.ofNat (0xC0 ||| (n >>> 6)),
     UInt8.ofNat (0x80 ||| (n &&& 0x3F))]
  else if n < 0x10000 then
    [UInt8.ofNat (0xE0 ||| (n >>> 12)),
     UInt8.ofNat (0x80 ||| ((n >>> 6) &&& 0x3F)),
     UInt8.ofNat (0x80 ||| (n &&& 0x3F))]
  else
    [UInt8.ofNat (0xF0 ||| (n >>> 18)),
     UInt8.ofNat (0x80 ||| ((n >>> 12) &&& 0x3F)),
     UInt8.ofNat (0x80 ||| ((n >>> 6) &&& 0x3F)),
     UInt8.ofNat (0x80 ||| (n &&& 0x3F))]

/-- The bytes of a Go string (Go strings are byte sequences; string literals
hold the UTF-8 bytes of their text). -/
def stringToBytes (s : String) : List UInt8 :=
  s.data.flatMap charUTF8

/-- Model of `net/textproto` token characters (`validHeaderFieldByte`):
letters, digits, and the listed punctuation (the list is the byte values of
the characters Go accepts in a header-field name). -/
def isTokenChar (c : Char) : Bool :=
  c.isAlphanum ||
    [33, 35, 36, 37, 38, 39, 42, 43, 45, 46, 94, 95, 96, 124, 126].contains c.toNat

/-- Model of `textproto.CanonicalMIMEHeaderKey` character rewriting: uppercase
after a start-of-word or a hyphen, lowercase otherwise. -/
def canonicalChars : List Char → Bool → List Char
  | [], _ => []
  | c :: rest, upper =>
    let c' := if upper then c.toUpper else c.toLower
    c' :: canonicalChars rest (c' = '-')

/-- Model of `textproto.CanonicalMIMEHeaderKey`: a key containing a
non-token character is returned unchanged; otherwise it is canonicalized. -/
def canonicalMIMEHeaderKey (s : String) : String :=
  if s.data.all isTokenChar then ⟨canonicalChars s.data true⟩ else s

/-- One entry per key, as in `sync.Map`: `Store` overwrites an existing
binding in place and otherwise appends. -/
def storeHeader (h : List (String × String)) (k v : String) : List (String × String) :=
  if h.any (fun p => p.1 == k) then
    h.map (fun p => if p.1 == k then (k, v) else p)
  else
    h ++ [(k, v)]

/-- The materialized transport-level request (`*http.Request`): method, URL,
canonical-keyed headers (`http.Header`, each value a list of strings as in
Go), body, and optional context. -/
structure HTTPRequest where
  method : String
  url : String
  header : List (String × List String)
  body : Option (List UInt8)
  ctx : Option GoContext
deriving DecidableEq

/-- Model of `http.Header.Set`: canonicalize the key and replace any existing
values with the single given value. -/
def headerSet (h : List (String × List String)) (k v : String) :
    List (String × List String) :=
  let ck := canonicalMIMEHeaderKey k
  if h.any (fun p => p.1 == ck) then
    h.map (fun p => if p.1 == ck then (ck, [v]) else p)
  else
    h ++ [(ck, [v])]

/-- The transport-level response (`*http.Response`): status code and the
content of its body stream. -/
structure HTTPResponse where
  statusCode : Int
  body : List UInt8
deriving DecidableEq

/-- The external HTTP transport (`http.Client.Do`): given the materialized
request and the attempt index (how many sends happened before this one), it
either fails with a transport error or produces a response. -/
def Transport : Type :=
  HTTPRequest → Nat → Except GoError HTTPResponse

/-- Model of `net/http`'s `validMethod`: nonempty and all token characters. -/
def validMethod (m : String) : Bool :=
  !m.isEmpty && m.data.all isTokenChar

/-- Simplified model of `url.Parse` failure: Go rejects ASCII control
characters in a URL. -/
def validURLString (s : String) : Bool :=
  s.data.all (fun c => decide (32 ≤ c.toNat) && decide (c.toNat ≠ 127))

/-- Model of the external `http.NewRequest`: an empty method defaults to GET;
an invalid method or URL fails; otherwise the request is created with an
empty header map and the given body (`nil` body stays `nil`). -/
def newRequest (method url : String) (body : Option (List UInt8)) :
    Except GoError HTTPRequest :=
  let method := if method.isEmpty then "GET" else method
  if validMethod method && validURLString url then
    .ok { method := method, url := url, header := [], body := body, ctx := none }
  else
    .error (.badRequest "net/http: invalid method or URL")

/-- The `Request` builder of request.go. The `client` field of the Go struct
is the transport, which every terminal method here receives as an explicit
`Transport` argument; `header` embeds the `sync.Map` as an insertion-ordered
association list with unique keys. -/
structure Request where
  err : Option GoError
  method : String
  baseURL : String
  path : String
  header : List (String × String)
  expectedStatus : Int
  retryCount : Int
  body : Option (List UInt8)
  ctx : Option GoContext
deriving DecidableEq

/-- `Error` returns the error stored on the Request. -/
def Request.Error (r : Request) : Option GoError := r.err

/-- `WithBytes` sets the passed bytes as the body to be used on the Request. -/
def Request.WithBytes (r : Request) (body : List UInt8) : Request :=
  { r with body := some body }

/-- `WithString` sets the passed string as the body to be used on the
Request. -/
def Request.WithString (r : Request) (body : String) : Request :=
  { r with body := some (stringToBytes body) }

/-- `WithHeader` sets a header that will be used on the Request
(`r.header.Store(key, value)`). -/
def Request.WithHeader (r : Request) (key value : String) : Request :=
  { r with header := storeHeader r.header key value }

/-- `WithContentType` sets the content-type header on the Request. -/
def Request.WithContentType (r : Request) (typ : String) : Request :=
  r.WithHeader "Content-Type" typ

/-- `WithJSON` sets the JSON encoded passed value as the body. Exactly as in
the source, `r.err` is assigned the result of the encode call: a failure
stores the encode error (the body remains the partially written buffer,
here empty), and a success stores `nil`, overwriting any previous error. -/
def Request.WithJSON (r : Request) (body : GoValue) : Request :=
  let r1 := r.WithContentType "application/json"
  match jsonEncode body with
  | .ok bs => { r1 with body := some bs, err := none }
  | .error e => { r1 with body := some [], err := some e }

/-- `WithXML` sets the XML encoded passed value as the body, with the same
error behavior as `WithJSON`. -/
def Request.WithXML (r : Request) (body : GoValue) : Request :=
  let r1 := r.WithContentType "application/xml"
  match xmlEncode body with
  | .ok bs => { r1 with body := some bs, err := none }
  | .error e => { r1 with body := some [], err := some e }

/-- `WithContext` sets the context on the Request. -/
def Request.WithContext (r : Request) (ctx : GoContext) : Request :=
  { r with ctx := some ctx }

/-- `WithExpectedStatus` sets the status code that counts as a success. -/
def Request.WithExpectedStatus (r : Request) (expectedStatusCode : Int) : Request :=
  { r with expectedStatus := expectedStatusCode }

/-- `WithRetry` sets the desired number of retries on the Request. -/
def Request.WithRetry (r : Request) (retryCount : Int) : Request :=
  { r with retryCount := retryCount }

/-- Apply the Request's context to the materialized request if one is set
(`req = req.WithContext(r.ctx)`). -/
def applyCtx (r : Request) (req : HTTPRequest) : HTTPRequest :=
  match r.ctx with
  | some c => { req with ctx := some c }
  | none => req

/-- Apply all stored headers to the materialized request
(`r.header.Range(... req.Header.Set ...)`), in insertion order. -/
def applyHeaders (r : Request) (req : HTTPRequest) : HTTPRequest :=
  r.header.foldl (fun rq p => { rq with header := headerSet rq.header p.1 p.2 }) req

/-- `toHTTPRequest` converts a Request to a standard HTTP request: build it
with `http.NewRequest` from method, `baseURL + path` and body, attach the
context if one is set, then `Set` every stored header. -/
def Request.toHTTPRequest (r : Request) : Except GoError HTTPRequest :=
  match newRequest r.method (r.baseURL ++ r.path) r.body with
  | .error e => .error e
  | .ok req0 => .ok (applyHeaders r (applyCtx r req0))

/-- Structural core of `doRetry`, recursing on the `Nat` image of the `int`
retry counter (the source's guard `retryCount > 0` is the pattern match on
`retry`): send via the transport; a transport error returns immediately; a
response with an unexpected status is retried while retries remain. The
second component counts transport invocations. -/
def doRetryNat (t : Transport) (r : HTTPRequest) (attempt : Nat)
    (expectedStatus : Int) (retry : Nat) : Except GoError HTTPResponse × Nat :=
  match t r attempt, retry with
  | .error e, _ => (.error e, 1)
  | .ok res, 0 => (.ok res, 1)
  | .ok res, retry' + 1 =>
    if 0 < expectedStatus ∧ res.statusCode ≠ expectedStatus then
      let d := doRetryNat t r (attempt + 1) expectedStatus retry'
      (d.1, d.2 + 1)
    else
      (.ok res, 1)

/-- `doRetry` executes the request and retries as many times as specified.
The Go function recurses on an `int` counter with guard `retryCount > 0` and
step `retryCount - 1`, which agrees with recursing on `retryCount.toNat`. -/
def doRetry (t : Transport) (r : HTTPRequest) (attempt : Nat)
    (expectedStatus retryCount : Int) : Except GoError HTTPResponse × Nat :=
  doRetryNat t r attempt expectedStatus retryCount.toNat

/-- Modelled from the spec: the `Response` wrapper of response.go (not among
the sources at hand), created by `Do` around the transport response. -/
structure Response where
  res : HTTPResponse
deriving DecidableEq

/-- Modelled from the spec: `StatusCode` is a pure accessor of the stored
status code. -/
def Response.StatusCode (res : Response) : Int := res.res.statusCode

/-- Modelled from the spec: `Bytes` drains the body stream fully into a byte
sequence. -/
def Response.Bytes (res : Response) : Option (List UInt8) × Option GoError :=
  (some res.res.body, none)

/-- Modelled from the spec: `JSON(out)` drains and deserializes the body into
`out`. The first component is the value written to `out` (`none` when the
decode fails and nothing is written), the second the decode error. -/
def Response.JSON (res : Response) : Option GoValue × Option GoError :=
  match jsonDecode res.res.body with
  | .ok v => (some v, none)
  | .error e => (none, some e)

/-- Modelled from the spec: `XML(out)` drains and deserializes the body into
`out`, XML flavored. -/
def Response.XML (res : Response) : Option GoValue × Option GoError :=
  match xmlDecode res.res.body with
  | .ok v => (some v, none)
  | .error e => (none, some e)

/-- `Do` performs the base request: fail fast on a deferred error, materialize
the transport request, then delegate to `doRetry` and wrap the result. The
result is `((response pointer, error), transport invocation count)`. -/
def Request.Do (r : Request) (t : Transport) :
    (Option Response × Option GoError) × Nat :=
  match r.err with
  | some e => ((none, some e), 0)
  | none =>
    match r.toHTTPRequest with
    | .error e => ((none, some e), 0)
    | .ok req =>
      match doRetry t req 0 r.expectedStatus r.retryCount with
      | (.error e, n) => ((none, some e), n)
      | (.ok res, n) => ((some ⟨res⟩, none), n)

/-- `Bytes` executes the request and decodes the body into a byte slice;
an execution error is propagated. The final case is unreachable (`Do` never
returns a `nil` response together with a `nil` error). -/
def Request.Bytes (r : Request) (t : Transport) :
    (Option (List UInt8) × Option GoError) × Nat :=
  match r.Do t with
  | ((_, some e), n) => ((none, some e), n)
  | ((some res, none), n) => (res.Bytes, n)
  | ((none, none), n) => ((none, none), n)

/-- `String` executes the request via `Bytes` and converts the result to a
string (in Go a plain byte-to-string conversion, so the bytes are kept). -/
def Request.String (r : Request) (t : Transport) :
    (Option (List UInt8) × Option GoError) × Nat :=
  match r.Bytes t with
  | ((_, some e), n) => ((none, some e), n)
  | ((bs, none), n) => ((bs, none), n)

/-- `JSON(out)` executes the request and decodes the JSON body into `out`;
the first component is the value written to `out`. -/
def Request.JSON (r : Request) (t : Transport) :
    (Option GoValue × Option GoError) × Nat :=
  match r.Do t with
  | ((_, some e), n) => ((none, some e), n)
  | ((some res, none), n) => (res.JSON, n)
  | ((none, none), n) => ((none, none), n)

/-- `XML(out)` executes the request and decodes the XML body into `out`. -/
def Request.XML (r : Request) (t : Transport) :
    (Option GoValue × Option GoError) × Nat :=
  match r.Do t with
  | ((_, some e), n) => ((none, some e), n)
  | ((some res, none), n) => (res.XML, n)
  | ((none, none), n) => ((none, none), n)

/-- `JSONWithError(out, errOut)` executes the request; when an expected
status is configured and the actual status differs, the body is decoded into
`errOut` and the boolean is `false`, otherwise into `out` with `true`. The
result is `(((expected, returned error), (value written to out, value
written to errOut)), invocation count)`. -/
def Request.JSONWithError (r : Request) (t : Transport) :
    ((Bool × Option GoError) × (Option GoValue × Option GoValue)) × Nat :=
  match r.Do t with
  | ((_, some e), n) => (((false, some e), (none, none)), n)
  | ((some res, none), n) =>
    if 0 < r.expectedStatus ∧ res.StatusCode ≠ r.expectedStatus then
      (((false, res.JSON.2), (none, res.JSON.1)), n)
    else
      (((true, res.JSON.2), (res.JSON.1, none)), n)
  | ((none, none), n) => (((false, none), (none, none)), n)

/-- `XMLWithError(out, errOut)` is `JSONWithError` with XML decoding. -/
def Request.XMLWithError (r : Request) (t : Transport) :
    ((Bool × Option GoError) × (Option GoValue × Option GoValue)) × Nat :=
  match r.Do t with
  | ((_, some e), n) => (((false, some e), (none, none)), n)
  | ((some res, none), n) =>
    if 0 < r.expectedStatus ∧ res.StatusCode ≠ r.expectedStatus then
      (((false, res.XML.2), (none, res.XML.1)), n)
    else
      (((true, res.XML.2), (res.XML.1, none)), n)
  | ((none, none), n) => (((false, none), (none, none)), n)

/-- A freshly constructed GET request with no configuration applied, used as
a concrete input in witnesses. -/
def emptyRequest : Request :=
  { err := none, method := "GET", baseURL := "http://example.com", path := "/",
    header := [], expectedStatus := 0, retryCount := 0, body := none, ctx := none }

/-- A request carrying a deferred error from a failed `WithJSON`, used as a
concrete input in witnesses. -/
def failedRequest : Request :=
  emptyRequest.WithJSON (GoValue.bad "unsupported type")

/-- Transport double: every attempt succeeds with status 200 and body `[65]`. -/
def transportOK : Transport := fun _ _ => .ok ⟨200, [65]⟩

/-- Transport double: every attempt fails at the transport level. -/
def transportFail : Transport := fun _ _ => .error (.transport "connection refused")

/-- Transport double: every attempt succeeds with status 500 and body `[68]`. -/
def transport500 : Transport := fun _ _ => .ok ⟨500, [68]⟩

/-- Transport double: status 500 on the first two attempts, then status 201
with body `[67]`. -/
def transportFlaky : Transport :=
  fun _ a => if a < 2 then .ok ⟨500, []⟩ else .ok ⟨201, [67]⟩

/-- A concrete materialized request, used as a concrete input in witnesses. -/
def sampleHTTPRequest : HTTPRequest :=
  { method := "GET", url := "http://example.com/", header := [], body := none,
    ctx := none }

/-! Helper lemmas. -/

/-- Folding the header application over the stored headers only rewrites the
`header` field of the materialized request. -/
lemma applyHeaders_eq (r : Request) (req : HTTPRequest) :
    applyHeaders r req =
      { req with
        header := r.header.foldl (fun acc p => headerSet acc p.1 p.2) req.header } := by
  unfold applyHeaders
  generalize r.header = l
  induction l generalizing req with
  | nil => rfl
  | cons p l ih =>
    simp only [List.foldl_cons]
    rw [ih]

/-- Attaching the context only rewrites the `ctx` field. -/
lemma applyCtx_body (r : Request) (req : HTTPRequest) :
    (applyCtx r req).body = req.body := by
  unfold applyCtx
  cases r.ctx <;> rfl

/-- Attaching the context leaves the header field unchanged. -/
lemma applyCtx_header (r : Request) (req : HTTPRequest) :
    (applyCtx r req).header = req.header := by
  unfold applyCtx
  cases r.ctx <;> rfl

/-- A successful materialization carries the builder's body unchanged and a
header map obtained by `Set`-folding the stored headers over the empty map. -/
lemma toHTTPRequest_ok (r : Request) (req : HTTPRequest)
    (h : r.toHTTPRequest = .ok req) :
    req.body = r.body ∧
    req.header = r.header.foldl (fun acc p => headerSet acc p.1 p.2) [] := by
  unfold Request.toHTTPRequest at h
  cases hn : newRequest r.method (r.baseURL ++ r.path) r.body with
  | error e => rw [hn] at h; cases h
  | ok req0 =>
    rw [hn] at h
    simp only at h
    have hb0 : req0.body = r.body ∧ req0.header = [] := by
      simp only [newRequest] at hn
      split at hn
      all_goals split at hn
      all_goals first
        | (injection hn with hh; subst hh; exact ⟨rfl, rfl⟩)
        | (simp at hn)
    injection h with hh
    subst hh
    rw [applyHeaders_eq]
    refine ⟨?_, ?_⟩
    · simpa [applyCtx_body] using hb0.1
    · simp [applyCtx_header, hb0.2]

/-- When the first `n + 1` attempts all succeed with a status different from
the expected one, the retry executor spends its whole budget of `n` retries
and hands back the outcome of the last attempt, after `n + 1` invocations. -/
lemma doRetryNat_all_mismatch (t : Transport) (req : HTTPRequest) (S : Int)
    (hS : 0 < S) :
    ∀ (n k : Nat),
      (∀ i, i ≤ n → ∃ res, t req (k + i) = .ok res ∧ res.statusCode ≠ S) →
      doRetryNat t req k S n = (t req (k + n), n + 1) := by
  intro n
  induction n with
  | zero =>
    intro k h
    obtain ⟨res, hres, -⟩ := h 0 (Nat.le_refl 0)
    rw [Nat.add_zero] at hres
    rw [Nat.add_zero, hres]
    simp [doRetryNat, hres]
  | succ n ih =>
    intro k h
    obtain ⟨res0, h0, hne0⟩ := h 0 (by omega)
    rw [Nat.add_zero] at h0
    have hrec := ih (k + 1) (fun i hi => by
      obtain ⟨res, hres, hs⟩ := h (i + 1) (by omega)
      exact ⟨res, by rw [show k + 1 + i = k + (i + 1) by omega]; exact hres, hs⟩)
    unfold doRetryNat
    rw [h0]
    dsimp only
    rw [if_pos ⟨hS, hne0⟩]
    simp only [hrec]
    rw [show k + 1 + n = k + (n + 1) by omega]

/-- When the first `m` attempts mismatch and attempt `m` (zero-based) hits the
expected status, with at least `m` retries budgeted, the executor stops right
there after `m + 1` invocations. -/
lemma doRetryNat_success (t : Transport) (req : HTTPRequest) (S : Int)
    (hS : 0 < S) :
    ∀ (m k n : Nat), m ≤ n →
      (∀ i, i < m → ∃ res, t req (k + i) = .ok res ∧ res.statusCode ≠ S) →
      (∃ res, t req (k + m) = .ok res ∧ res.statusCode = S) →
      doRetryNat t req k S n = (t req (k + m), m + 1) := by
  intro m
  induction m with
  | zero =>
    intro k n hmn hmis hsucc
    obtain ⟨res, hres, heq⟩ := hsucc
    rw [Nat.add_zero] at hres
    rw [Nat.add_zero, hres]
    cases n with
    | zero => simp [doRetryNat, hres]
    | succ n' =>
      unfold doRetryNat
      rw [hres]
      dsimp only
      rw [if_neg (by simp [heq])]
  | succ m ih =>
    intro k n hmn hmis hsucc
    cases n with
    | zero => omega
    | succ n' =>
      obtain ⟨res0, h0, hne0⟩ := hmis 0 (by omega)
      rw [Nat.add_zero] at h0
      have hrec := ih (k + 1) n' (by omega)
        (fun i hi => by
          obtain ⟨res, hres, hs⟩ := hmis (i + 1) (by omega)
          exact ⟨res, by rw [show k + 1 + i = k + (i + 1) by omega]; exact hres, hs⟩)
        (by
          obtain ⟨res, hres, hs⟩ := hsucc
          exact ⟨res, by rw [show k + 1 + m = k + (m + 1) by omega]; exact hres, hs⟩)
      unfold doRetryNat
      rw [h0]
      dsimp only
      rw [if_pos ⟨hS, hne0⟩]
      simp only [hrec]
      rw [show k + 1 + m = k + (m + 1) by omega]


/-- Filtering by a key commutes with the value-replacing map of `headerSet`. -/
lemma filter_map_comm (h : List (String × List String)) (ck : String) (v : String) :
    (h.map (fun p => if p.1 == ck then (ck, [v]) else p)).filter
        (fun p => p.1 == ck) =
      (h.filter (fun p => p.1 == ck)).map
        (fun p => if p.1 == ck then (ck, [v]) else p) := by
  induction h with
  | nil => rfl
  | cons q h ih =>
    by_cases hq : q.1 = ck
    · simp [hq]
      simpa using ih
    · simp [hq]
      simpa using ih

/-- Replacing the values stored under one key leaves the entries filtered by
a different key unchanged. -/
lemma filter_map_other (h : List (String × List String)) (ck' ck : String)
    (v : String) (hne : ck' ≠ ck) :
    (h.map (fun p => if p.1 == ck' then (ck', [v]) else p)).filter
        (fun p => p.1 == ck) =
      h.filter (fun p => p.1 == ck) := by
  induction h with
  | nil => rfl
  | cons q h ih =>
    by_cases hq : q.1 = ck'
    · simp [hq, hne]
      simpa using ih
    · by_cases hq2 : q.1 = ck
      · simp [hq2, Ne.symm hne]
        simpa using ih
      · simp [hq, hq2]
        simpa using ih

/-- `headerSet` with a key that does not canonicalize to `ck` leaves the
`ck`-entries unchanged. -/
lemma filter_headerSet_of_ne (h : List (String × List String)) (k v ck : String)
    (hk : canonicalMIMEHeaderKey k ≠ ck) :
    (headerSet h k v).filter (fun p => p.1 == ck) =
      h.filter (fun p => p.1 == ck) := by
  unfold headerSet
  dsimp only
  split
  · exact filter_map_other h _ ck v hk
  · rw [List.filter_append]
    simp [hk]

/-- `headerSet` with a key canonicalizing to `ck` leaves exactly one
`ck`-entry, holding the single new value, provided the map held at most one
such entry before (true of every header map built from `Set` alone). -/
lemma filter_headerSet_hit (h : List (String × List String)) (k v : String)
    (hlen : (h.filter (fun p => p.1 == canonicalMIMEHeaderKey k)).length ≤ 1) :
    (headerSet h k v).filter (fun p => p.1 == canonicalMIMEHeaderKey k) =
      [(canonicalMIMEHeaderKey k, [v])] := by
  unfold headerSet
  dsimp only
  set ck := canonicalMIMEHeaderKey k with hck
  split
  case isTrue hany =>
    rw [filter_map_comm]
    obtain ⟨x, hx, hfx⟩ := List.any_eq_true.mp hany
    have hmem : x ∈ h.filter (fun p => p.1 == ck) := List.mem_filter.mpr ⟨hx, hfx⟩
    have hne : h.filter (fun p => p.1 == ck) ≠ [] := List.ne_nil_of_mem hmem
    have h1 : (h.filter (fun p => p.1 == ck)).length = 1 := by
      have := List.length_pos.mpr hne
      omega
    obtain ⟨a, ha⟩ := List.length_eq_one.mp h1
    have haP : (a.1 == ck) = true := by
      have : a ∈ h.filter (fun p => p.1 == ck) := by
        rw [ha]
        exact List.mem_singleton_self a
      exact (List.mem_filter.mp this).2
    rw [ha]
    simp only [List.map_cons, List.map_nil]
    rw [if_pos haP]
  case isFalse hany =>
    have hf : h.filter (fun p => p.1 == ck) = [] := by
      rw [List.filter_eq_nil_iff]
      intro p hp hpc
      exact hany (List.any_eq_true.mpr ⟨p, hp, hpc⟩)
    rw [List.filter_append, hf]
    simp

/-- Every entry of `storeHeader h k v` is either the new binding or an old
entry with a different key. -/
lemma mem_storeHeader (h : List (String × String)) (k v : String)
    (p : String × String) (hp : p ∈ storeHeader h k v) :
    p = (k, v) ∨ (p ∈ h ∧ p.1 ≠ k) := by
  unfold storeHeader at hp
  split at hp
  · obtain ⟨q, hq, hfq⟩ := List.mem_map.mp hp
    by_cases hqk : q.1 = k
    · left
      rw [← hfq]
      simp [hqk]
    · right
      have hpq : p = q := by
        rw [← hfq]
        simp [hqk]
      rw [hpq]
      exact ⟨hq, hqk⟩
  case isFalse hany =>
    rcases List.mem_append.mp hp with h1 | h1
    · right
      refine ⟨h1, fun hk => ?_⟩
      exact hany (List.any_eq_true.mpr ⟨p, h1, by simp [hk]⟩)
    · left
      simpa using h1

/-- `storeHeader` always leaves the just-stored binding in the map. -/
lemma storeHeader_mem_self (h : List (String × String)) (k v : String) :
    (k, v) ∈ storeHeader h k v := by
  unfold storeHeader
  split
  case isTrue hany =>
    obtain ⟨q, hq, hfq⟩ := List.any_eq_true.mp hany
    refine List.mem_map.mpr ⟨q, hq, ?_⟩
    simp [hfq]
  case isFalse hany => simp

/-- Folding `headerSet` over stored headers whose `ck`-canonical entries all
carry the value `b` produces exactly one `ck`-entry `[b]`, provided such an
entry exists in the fold or the accumulator already holds exactly it. -/
lemma foldl_headerSet_filter (ck b : String) :
    ∀ (l : List (String × String)) (h : List (String × List String)),
      (h.filter (fun p => p.1 == ck)).length ≤ 1 →
      (∀ p ∈ l, canonicalMIMEHeaderKey p.1 = ck → p.2 = b) →
      ((∃ p ∈ l, canonicalMIMEHeaderKey p.1 = ck) ∨
        h.filter (fun p => p.1 == ck) = [(ck, [b])]) →
      (l.foldl (fun acc p => headerSet acc p.1 p.2) h).filter
          (fun p => p.1 == ck) =
        [(ck, [b])] := by
  intro l
  induction l with
  | nil =>
    rintro h - - (⟨p, hp, -⟩ | hres)
    · cases hp
    · exact hres
  | cons q l ih =>
    intro h hlen hall hdisj
    rw [List.foldl_cons]
    by_cases hq : canonicalMIMEHeaderKey q.1 = ck
    · have hqb : q.2 = b := hall q (List.mem_cons_self q l) hq
      rw [hqb]
      have hhit := filter_headerSet_hit h q.1 b (by rw [hq]; exact hlen)
      rw [hq] at hhit
      exact ih (headerSet h q.1 b)
        (by rw [hhit]; simp)
        (fun p hp hpc => hall p (List.mem_cons_of_mem q hp) hpc)
        (Or.inr hhit)
    · have hsame := filter_headerSet_of_ne h q.1 q.2 ck hq
      refine ih (headerSet h q.1 q.2)
        (by rw [hsame]; exact hlen)
        (fun p hp hpc => hall p (List.mem_cons_of_mem q hp) hpc) ?_
      rcases hdisj with ⟨p, hp, hpc⟩ | hres
      · rcases List.mem_cons.mp hp with rfl | hp'
        · exact absurd hpc hq
        · exact Or.inl ⟨p, hp', hpc⟩
      · exact Or.inr (by rw [hsame]; exact hres)

/-! Claim theorems. -/

/-- C1, counterexample: the deferred error is not sticky. A failed
`WithJSON` stores an encode error, but a subsequent successful `WithJSON`
overwrites the stored error with `nil`, erasing it — so a later
configuration call is not a no-op with respect to the deferred error. -/
theorem deferredError_not_sticky :
    (emptyRequest.WithJSON (GoValue.bad "func")).err =
      some (GoError.encode "func") ∧
    ((emptyRequest.WithJSON (GoValue.bad "func")).WithJSON
        (GoValue.ok [49])).err = none :=
  ⟨rfl, rfl⟩

/-- C1, amended: once the deferred error is set, every configuration call
other than `WithJSON`/`WithXML` preserves it, and any terminal execution
fails immediately with that error without invoking the transport; however
`WithJSON`/`WithXML` overwrite the deferred error with the outcome of their
own encode call, so a later successful encode clears it. -/
theorem deferredError_amended (r : Request) (e : GoError) (t : Transport)
    (b : List UInt8) (s k v typ : String) (c : GoContext) (sc rc : Int)
    (j x : GoValue) (he : r.err = some e) :
    (r.WithBytes b).err = some e ∧
    (r.WithString s).err = some e ∧
    (r.WithHeader k v).err = some e ∧
    (r.WithContentType typ).err = some e ∧
    (r.WithContext c).err = some e ∧
    (r.WithExpectedStatus sc).err = some e ∧
    (r.WithRetry rc).err = some e ∧
    (r.WithJSON j).err =
      (match jsonEncode j with
        | .ok _ => none
        | .error e' => some e') ∧
    (r.WithXML x).err =
      (match xmlEncode x with
        | .ok _ => none
        | .error e' => some e') ∧
    r.Do t = ((none, some e), 0) := by
  refine ⟨he, he, he, he, he, he, he, ?_, ?_, ?_⟩
  · unfold Request.WithJSON
    cases jsonEncode j <;> rfl
  · unfold Request.WithXML
    cases xmlEncode x <;> rfl
  · unfold Request.Do
    rw [he]

/-- C1, witness for the amended theorem at concrete inputs. -/
theorem deferredError_amended_witness :
    (failedRequest.WithBytes [1]).err = some (GoError.encode "unsupported type") ∧
    (failedRequest.WithString "s").err = some (GoError.encode "unsupported type") ∧
    (failedRequest.WithHeader "K" "v").err = some (GoError.encode "unsupported type") ∧
    (failedRequest.WithContentType "text/plain").err =
      some (GoError.encode "unsupported type") ∧
    (failedRequest.WithContext ⟨7⟩).err = some (GoError.encode "unsupported type") ∧
    (failedRequest.WithExpectedStatus 200).err =
      some (GoError.encode "unsupported type") ∧
    (failedRequest.WithRetry 3).err = some (GoError.encode "unsupported type") ∧
    (failedRequest.WithJSON (GoValue.ok [49])).err =
      (match jsonEncode (GoValue.ok [49]) with
        | .ok _ => none
        | .error e' => some e') ∧
    (failedRequest.WithXML (GoValue.bad "chan")).err =
      (match xmlEncode (GoValue.bad "chan") with
        | .ok _ => none
        | .error e' => some e') ∧
    failedRequest.Do transportOK = ((none, some (GoError.encode "unsupported type")), 0) :=
  deferredError_amended failedRequest (GoError.encode "unsupported type")
    transportOK [1] "s" "K" "v" "text/plain" ⟨7⟩ 200 3 (GoValue.ok [49])
    (GoValue.bad "chan") rfl

/-- C3: a Request carrying a deferred error makes every terminal method
return exactly that error, with the transport never invoked (invocation
count 0). -/
theorem terminals_return_deferred_error (r : Request) (e : GoError)
    (t : Transport) (he : r.err = some e) :
    r.Do t = ((none, some e), 0) ∧
    r.Bytes t = ((none, some e), 0) ∧
    r.String t = ((none, some e), 0) ∧
    r.JSON t = ((none, some e), 0) ∧
    r.XML t = ((none, some e), 0) ∧
    r.JSONWithError t = (((false, some e), (none, none)), 0) ∧
    r.XMLWithError t = (((false, some e), (none, none)), 0) := by
  have hdo : r.Do t = ((none, some e), 0) := by
    unfold Request.Do
    rw [he]
  have hb : r.Bytes t = ((none, some e), 0) := by
    unfold Request.Bytes
    rw [hdo]
  have hs : r.String t = ((none, some e), 0) := by
    unfold Request.String
    rw [hb]
  have hj : r.JSON t = ((none, some e), 0) := by
    unfold Request.JSON
    rw [hdo]
  have hx : r.XML t = ((none, some e), 0) := by
    unfold Request.XML
    rw [hdo]
  have hje : r.JSONWithError t = (((false, some e), (none, none)), 0) := by
    unfold Request.JSONWithError
    rw [hdo]
  have hxe : r.XMLWithError t = (((false, some e), (none, none)), 0) := by
    unfold Request.XMLWithError
    rw [hdo]
  exact ⟨hdo, hb, hs, hj, hx, hje, hxe⟩

/-- C3, witness at a concrete failed request and transport. -/
theorem terminals_return_deferred_error_witness :
    failedRequest.Do transportOK =
      ((none, some (GoError.encode "unsupported type")), 0) ∧
    failedRequest.Bytes transportOK =
      ((none, some (GoError.encode "unsupported type")), 0) ∧
    failedRequest.String transportOK =
      ((none, some (GoError.encode "unsupported type")), 0) ∧
    failedRequest.JSON transportOK =
      ((none, some (GoError.encode "unsupported type")), 0) ∧
    failedRequest.XML transportOK =
      ((none, some (GoError.encode "unsupported type")), 0) ∧
    failedRequest.JSONWithError transportOK =
      (((false, some (GoError.encode "unsupported type")), (none, none)), 0) ∧
    failedRequest.XMLWithError transportOK =
      (((false, some (GoError.encode "unsupported type")), (none, none)), 0) :=
  terminals_return_deferred_error failedRequest _ transportOK rfl

/-- C4: a transport-level error is returned immediately after exactly one
invocation, with no retry, for every expected status and retry count. -/
theorem doRetry_transport_error (t : Transport) (req : HTTPRequest) (a : Nat)
    (S N : Int) (e : GoError) (h : t req a = .error e) :
    doRetry t req a S N = (.error e, 1) := by
  unfold doRetry doRetryNat
  rw [h]

/-- C4, witness at a concrete failing transport. -/
theorem doRetry_transport_error_witness :
    doRetry transportFail sampleHTTPRequest 0 200 5 =
      (.error (.transport "connection refused"), 1) :=
  doRetry_transport_error transportFail sampleHTTPRequest 0 200 5
    (.transport "connection refused") rfl

/-- C10: the configuration methods other than `WithJSON`/`WithXML` never
touch the deferred error, and each rewrites exactly its own target field. -/
theorem config_methods_frame (r : Request) (b : List UInt8)
    (s k v typ : String) (c : GoContext) (sc rc : Int) :
    ((r.WithBytes b).err = r.err ∧ r.WithBytes b = { r with body := some b }) ∧
    ((r.WithString s).err = r.err ∧
      r.WithString s = { r with body := some (stringToBytes s) }) ∧
    ((r.WithHeader k v).err = r.err ∧
      r.WithHeader k v = { r with header := storeHeader r.header k v }) ∧
    ((r.WithContentType typ).err = r.err ∧
      r.WithContentType typ =
        { r with header := storeHeader r.header "Content-Type" typ }) ∧
    ((r.WithContext c).err = r.err ∧ r.WithContext c = { r with ctx := some c }) ∧
    ((r.WithExpectedStatus sc).err = r.err ∧
      r.WithExpectedStatus sc = { r with expectedStatus := sc }) ∧
    ((r.WithRetry rc).err = r.err ∧
      r.WithRetry rc = { r with retryCount := rc }) :=
  ⟨⟨rfl, rfl⟩, ⟨rfl, rfl⟩, ⟨rfl, rfl⟩, ⟨rfl, rfl⟩, ⟨rfl, rfl⟩, ⟨rfl, rfl⟩,
    ⟨rfl, rfl⟩⟩

/-- C2: with expected status `S > 0` and retry count `N ≥ 0`, if every
attempt yields a non-`S` status the transport is invoked exactly `N + 1`
times and the result is the last attempt's response; if attempt `k`
(1-based, `k ≤ N + 1`) yields status `S` after earlier mismatches, exactly
`k` invocations occur and the result is that attempt's response. -/
theorem doRetry_invocation_counts (t : Transport) (req : HTTPRequest)
    (S N : Int) (hS : 0 < S) (hN : 0 ≤ N) :
    ((∀ i : Nat, i ≤ N.toNat →
        ∃ res, t req i = .ok res ∧ res.statusCode ≠ S) →
      doRetry t req 0 S N = (t req N.toNat, N.toNat + 1)) ∧
    (∀ k : Nat, 0 < k → k ≤ N.toNat + 1 →
      (∀ i : Nat, i < k - 1 →
        ∃ res, t req i = .ok res ∧ res.statusCode ≠ S) →
      (∃ res, t req (k - 1) = .ok res ∧ res.statusCode = S) →
      doRetry t req 0 S N = (t req (k - 1), k)) := by
  constructor
  · intro h
    have := doRetryNat_all_mismatch t req S hS N.toNat 0
      (fun i hi => by simpa using h i hi)
    simpa [doRetry] using this
  · intro k hk hkN hmis hsucc
    have := doRetryNat_success t req S hS (k - 1) 0 N.toNat (by omega)
      (fun i hi => by simpa using hmis i hi)
      (by simpa using hsucc)
    rw [show k - 1 + 1 = k by omega] at this
    simpa [doRetry] using this

/-- C2, witness: expecting status 200 with 2 retries against a constant-500
transport gives 3 invocations and the last response; a `500, 500, 201`
transport with expected status 201 and 5 retries stops after exactly 3
invocations with the third attempt's response. -/
theorem doRetry_invocation_counts_witness :
    doRetry transport500 sampleHTTPRequest 0 200 2 =
      (transport500 sampleHTTPRequest (Int.toNat 2), Int.toNat 2 + 1) ∧
    doRetry transportFlaky sampleHTTPRequest 0 201 5 =
      (transportFlaky sampleHTTPRequest (3 - 1), 3) := by
  constructor
  · exact (doRetry_invocation_counts transport500 sampleHTTPRequest 200 2
      (by decide) (by decide)).1
      (fun i hi => ⟨⟨500, [68]⟩, rfl, by decide⟩)
  · exact (doRetry_invocation_counts transportFlaky sampleHTTPRequest 201 5
      (by decide) (by decide)).2 3 (by decide) (by decide)
      (fun i hi => by
        interval_cases i <;> exact ⟨⟨500, []⟩, rfl, by decide⟩)
      ⟨⟨201, [67]⟩, rfl, by decide⟩

/-- C9: with no expected status configured (zero or negative), the retry
executor performs no retries regardless of the retry count, and the
`*WithError` terminals report `expected = true`, decoding into `out` and
never into `errOut`, whatever the actual status. -/
theorem no_expected_status (S N : Int) (t : Transport) (req : HTTPRequest)
    (a : Nat) (r : Request) (hS : S ≤ 0) (hr : r.expectedStatus ≤ 0) :
    doRetry t req a S N = (t req a, 1) ∧
    (∀ res n, r.Do t = ((some res, none), n) →
      r.JSONWithError t = (((true, res.JSON.2), (res.JSON.1, none)), n) ∧
      r.XMLWithError t = (((true, res.XML.2), (res.XML.1, none)), n)) := by
  constructor
  · cases h : t req a with
    | error e =>
      unfold doRetry doRetryNat
      rw [h]
    | ok res =>
      unfold doRetry doRetryNat
      rw [h]
      cases hN : N.toNat with
      | zero => rfl
      | succ m =>
        dsimp only
        rw [if_neg (by rintro ⟨h1, -⟩; omega)]
  · intro res n hdo
    constructor
    · unfold Request.JSONWithError
      rw [hdo]
      dsimp only
      rw [if_neg (by rintro ⟨h1, -⟩; omega)]
    · unfold Request.XMLWithError
      rw [hdo]
      dsimp only
      rw [if_neg (by rintro ⟨h1, -⟩; omega)]

/-- C9, witness: no expected status on a request receiving a 500 response
still reports `expected = true` and decodes into `out`; the executor calls
the transport once despite a positive retry count. -/
theorem no_expected_status_witness :
    doRetry transport500 sampleHTTPRequest 0 0 7 =
      (transport500 sampleHTTPRequest 0, 1) ∧
    (emptyRequest.WithRetry 7).JSONWithError transport500 =
      (((true, (Response.mk ⟨500, [68]⟩).JSON.2),
        ((Response.mk ⟨500, [68]⟩).JSON.1, none)), 1) := by
  constructor
  · exact (no_expected_status 0 7 transport500 sampleHTTPRequest 0
      emptyRequest (by decide) (by decide)).1
  · exact ((no_expected_status 0 7 transport500 sampleHTTPRequest 0
      (emptyRequest.WithRetry 7) (by decide) (by decide)).2
      ⟨⟨500, [68]⟩⟩ 1 (by decide)).1

/-- C5: with an expected status configured, `JSONWithError` and
`XMLWithError` decode into `out` exactly when the response status equals the
expected status (reporting `true`), and into `errOut` exactly when it
differs (reporting `false`), never touching the other target; the returned
error is the decode error of whichever decode ran. -/
theorem withError_status_dispatch (r : Request) (t : Transport)
    (res : Response) (n : Nat) (hS : 0 < r.expectedStatus)
    (hdo : r.Do t = ((some res, none), n)) :
    (res.StatusCode = r.expectedStatus →
      r.JSONWithError t = (((true, res.JSON.2), (res.JSON.1, none)), n) ∧
      r.XMLWithError t = (((true, res.XML.2), (res.XML.1, none)), n)) ∧
    (res.StatusCode ≠ r.expectedStatus →
      r.JSONWithError t = (((false, res.JSON.2), (none, res.JSON.1)), n) ∧
      r.XMLWithError t = (((false, res.XML.2), (none, res.XML.1)), n)) := by
  constructor
  · intro heq
    constructor
    · unfold Request.JSONWithError
      rw [hdo]
      dsimp only
      rw [if_neg (by rintro ⟨-, hne⟩; exact hne heq)]
    · unfold Request.XMLWithError
      rw [hdo]
      dsimp only
      rw [if_neg (by rintro ⟨-, hne⟩; exact hne heq)]
  · intro hne
    constructor
    · unfold Request.JSONWithError
      rw [hdo]
      dsimp only
      rw [if_pos ⟨hS, hne⟩]
    · unfold Request.XMLWithError
      rw [hdo]
      dsimp only
      rw [if_pos ⟨hS, hne⟩]

/-- C5, witness: expected status 200 against a 200 response decodes into
`out` with `true`; expected status 200 against a 500 response decodes into
`errOut` with `false`. -/
theorem withError_status_dispatch_witness :
    (emptyRequest.WithExpectedStatus 200).JSONWithError transportOK =
      (((true, (Response.mk ⟨200, [65]⟩).JSON.2),
        ((Response.mk ⟨200, [65]⟩).JSON.1, none)), 1) ∧
    (emptyRequest.WithExpectedStatus 200).XMLWithError transport500 =
      (((false, (Response.mk ⟨500, [68]⟩).XML.2),
        (none, (Response.mk ⟨500, [68]⟩).XML.1)), 1) := by
  constructor
  · exact ((withError_status_dispatch (emptyRequest.WithExpectedStatus 200)
      transportOK ⟨⟨200, [65]⟩⟩ 1 (by decide) (by decide)).1 (by decide)).1
  · exact ((withError_status_dispatch (emptyRequest.WithExpectedStatus 200)
      transport500 ⟨⟨500, [68]⟩⟩ 1 (by decide) (by decide)).2 (by decide)).2

/-- C6: the body set by `WithBytes b` (resp. `WithString s`) is carried
verbatim to the materialized transport request: reading it back yields
exactly `b` (resp. the UTF-8 bytes of `s`). -/
theorem body_roundtrip (r : Request) (b : List UInt8) (s : String)
    (req1 req2 : HTTPRequest)
    (h1 : (r.WithBytes b).toHTTPRequest = .ok req1)
    (h2 : (r.WithString s).toHTTPRequest = .ok req2) :
    req1.body = some b ∧ req2.body = some (stringToBytes s) := by
  constructor
  · have hb := (toHTTPRequest_ok _ _ h1).1
    simpa [Request.WithBytes] using hb
  · have hb := (toHTTPRequest_ok _ _ h2).1
    simpa [Request.WithString] using hb

/-- C6, witness at concrete bytes `[104]` and string `"hi"`. -/
theorem body_roundtrip_witness :
    ({ method := "GET", url := "http://example.com/", header := [],
        body := some [104], ctx := none } : HTTPRequest).body = some [104] ∧
    ({ method := "GET", url := "http://example.com/", header := [],
        body := some [104, 105], ctx := none } : HTTPRequest).body =
      some (stringToBytes "hi") :=
  body_roundtrip emptyRequest [104] "hi"
    { method := "GET", url := "http://example.com/", header := [],
      body := some [104], ctx := none }
    { method := "GET", url := "http://example.com/", header := [],
      body := some [104, 105], ctx := none }
    (by rfl) (by rfl)

/-- C7: storing the same header key twice keeps only the second value; the
materialized request carries exactly one header under that (canonicalized)
name, holding the last written value. The hypothesis rules out a second
stored raw key canonicalizing to the same name, in line with the unique-key
header model. -/
theorem withHeader_last_write_wins (r : Request) (K a b : String)
    (req : HTTPRequest)
    (hcol : ∀ p ∈ r.header, p.1 ≠ K →
      canonicalMIMEHeaderKey p.1 ≠ canonicalMIMEHeaderKey K)
    (hok : ((r.WithHeader K a).WithHeader K b).toHTTPRequest = .ok req) :
    req.header.filter (fun p => p.1 == canonicalMIMEHeaderKey K) =
      [(canonicalMIMEHeaderKey K, [b])] := by
  have hh := (toHTTPRequest_ok _ _ hok).2
  rw [hh]
  apply foldl_headerSet_filter
  · simp
  · intro p hp hpc
    rcases mem_storeHeader _ _ _ _ hp with hpb | ⟨hp2, hpk⟩
    · rw [hpb]
    · rcases mem_storeHeader _ _ _ _ hp2 with hpa | ⟨hp3, -⟩
      · exact absurd (by rw [hpa]) hpk
      · exact absurd hpc (hcol p hp3 hpk)
  · exact Or.inl ⟨(K, b), storeHeader_mem_self _ K b, rfl⟩

/-- C7, witness: a fresh request with `X-Test: a` then `X-Test: b` stored
materializes exactly one `X-Test` header with value `b`. -/
theorem withHeader_last_write_wins_witness :
    ({ method := "GET", url := "http://example.com/",
        header := [("X-Test", ["b"])], body := none,
        ctx := none } : HTTPRequest).header.filter
        (fun p => p.1 == canonicalMIMEHeaderKey "X-Test") =
      [(canonicalMIMEHeaderKey "X-Test", ["b"])] :=
  withHeader_last_write_wins emptyRequest "X-Test" "a" "b"
    { method := "GET", url := "http://example.com/",
      header := [("X-Test", ["b"])], body := none, ctx := none }
    (by intro p hp; simp [emptyRequest] at hp)
    (by rfl)

/-- C8: `Do` returns exactly one of a response or an error, and on success
the returned `Response` wraps precisely the transport response produced by
the retry executor, with the matching invocation count. -/
theorem do_result_exclusive (r : Request) (t : Transport) :
    ((r.Do t).1.2 = none ↔ (r.Do t).1.1 ≠ none) ∧
    (∀ res, (r.Do t).1.1 = some res →
      ∃ req, r.toHTTPRequest = .ok req ∧
        doRetry t req 0 r.expectedStatus r.retryCount =
          (.ok res.res, (r.Do t).2)) := by
  cases he : r.err with
  | some e =>
    have hdo : r.Do t = ((none, some e), 0) := by
      unfold Request.Do
      rw [he]
    rw [hdo]
    constructor
    · simp
    · intro res h
      simp at h
  | none =>
    cases hreq : r.toHTTPRequest with
    | error e =>
      have hdo : r.Do t = ((none, some e), 0) := by
        unfold Request.Do
        rw [he, hreq]
      rw [hdo]
      constructor
      · simp
      · intro res h
        simp at h
    | ok req =>
      cases hd : doRetry t req 0 r.expectedStatus r.retryCount with
      | mk result n =>
        cases result with
        | error e =>
          have hdo : r.Do t = ((none, some e), n) := by
            unfold Request.Do
            rw [he, hreq]
            dsimp only
            rw [hd]
          rw [hdo]
          constructor
          · simp
          · intro res h
            simp at h
        | ok hres =>
          have hdo : r.Do t = ((some ⟨hres⟩, none), n) := by
            unfold Request.Do
            rw [he, hreq]
            dsimp only
            rw [hd]
          rw [hdo]
          constructor
          · simp
          · intro res h
            simp at h
            refine ⟨req, rfl, ?_⟩
            rw [← h]
            exact hd

/-- C8, witness: a plain request over the all-200 transport yields a
response wrapping the retry executor's output after one invocation. -/
theorem do_result_exclusive_witness :
    ∃ req, emptyRequest.toHTTPRequest = .ok req ∧
      doRetry transportOK req 0 emptyRequest.expectedStatus
        emptyRequest.retryCount =
        (.ok (Response.mk ⟨200, [65]⟩).res, (emptyRequest.Do transportOK).2) :=
  (do_result_exclusive emptyRequest transportOK).2 ⟨⟨200, [65]⟩⟩ (by decide)
